import Mathlib

/-!
Shallow embedding of the neuroweave extraction pipeline, written from the
repository sources:

  * `api/services/extraction/nodes/evaluator.py` (`route_after_evaluation`)
  * `api/services/extraction/nodes/router.py` (`router_node`)
  * `api/services/extraction/nodes/quality_gate.py`
    (`compute_quality_score`, `quality_gate_node`, `route_after_quality`)
  * `api/services/consent_checker.py`
    (`get_consented_users`, `filter_consented_messages`)
  * `api/services/extraction/disentanglement.py` (`DisentanglementEngine`)
  * `api/services/extraction/graph.py` (`disentangle_node`)
  * `api/services/c2pa_signer.py` / `api/tasks/export_dataset.py`
  * `api/services/anonymizer.py` (`anonymize` and its regex patterns)

Python dictionaries with a fixed key set are modelled as structures, Python
`None` as `Option`, Python floats as exact rationals (the scores involved are
short sums of two-decimal constants, where rational arithmetic agrees with the
float arithmetic of the source on every comparison made), Python `datetime`
values as integer epoch seconds, and Python byte strings as `List Nat`.
External effects (the LLM calls, the database and the embedding model) enter
as explicit parameters: the theorems quantify over their possible outputs.
-/

namespace Neuroweave

/-! ## Shared Python string helpers -/

/-- Python whitespace for `str.strip` (ASCII subset; all inputs used here are ASCII). -/
def pySpace (c : Char) : Bool :=
  c = ' ' || c = '\t' || c = '\n' || c = '\r' || c = '\x0b' || c = '\x0c'

/-- Python `str.strip()`. -/
def pyStrip (s : List Char) : List Char :=
  ((s.dropWhile pySpace).reverse.dropWhile pySpace).reverse

/-- Python `str.upper()` (ASCII subset). -/
def pyUpper (s : List Char) : List Char :=
  s.map Char.toUpper

/-- Python `needle in hay` on strings: substring containment. -/
def pyContains (hay needle : List Char) : Bool :=
  match hay with
  | [] => needle.isEmpty
  | _ :: t => needle.isPrefixOf hay || pyContains t needle

/-! ## state.py -/

/-- `EvaluationResult` TypedDict from `api/services/extraction/state.py`. -/
structure EvaluationResult where
  has_solution : Bool
  has_code : Bool
  is_resolved : Bool
  reasoning : String
deriving Repr, DecidableEq

/-- `ARTICLE_TYPES` tuple from `api/services/extraction/state.py`. -/
def ARTICLE_TYPES : List String :=
  ["TROUBLESHOOTING", "QUESTION_ANSWER", "GUIDE", "DISCUSSION_SUMMARY"]

/-- `NOISE_OR_ARTICLE = ("NOISE", *ARTICLE_TYPES)` from `state.py`. -/
def NOISE_OR_ARTICLE : List String :=
  "NOISE" :: ARTICLE_TYPES

/-! ## evaluator.py: route_after_evaluation -/

/-- The fields of `AgentState` read around the evaluator's conditional edge.
`route_after_evaluation` itself reads only `evaluation`; `article_type` is kept
in the record to show that the routing decision does not depend on it. -/
structure EvalRouteState where
  article_type : String
  evaluation : Option EvaluationResult
deriving Repr, DecidableEq

/-- `route_after_evaluation` from `api/services/extraction/nodes/evaluator.py`:
`state.get("evaluation")` falsy (absent / None) ends the run; otherwise
`is_resolved and has_code` or `has_solution and has_code` go to the compiler
and everything else checkpoints. The source never consults `article_type`. -/
def route_after_evaluation (state : EvalRouteState) : String :=
  match state.evaluation with
  | none => "__end__"
  | some evaluation =>
    if evaluation.is_resolved && evaluation.has_code then "compiler"
    else if evaluation.has_solution && evaluation.has_code then "compiler"
    else "__end__"

/-! ## router.py: router_node -/

/-- The classification-extraction logic of `router_node` from
`api/services/extraction/nodes/router.py`, as a function of the classifier
response text: `text = response.content.strip().upper()`, then `"NOISE"`
only when `NOISE` occurs and `TECHNICAL` does not, otherwise `"TECHNICAL"`
(both the `elif "TECHNICAL" in text` branch and the default branch).
The node returns only `{"classification": classification}`. -/
def router_node_classification (content : String) : String :=
  let text := pyUpper (pyStrip content.toList)
  if pyContains text "NOISE".toList && !(pyContains text "TECHNICAL".toList) then
    "NOISE"
  else if pyContains text "TECHNICAL".toList then
    "TECHNICAL"
  else
    "TECHNICAL"

/-! ## quality_gate.py -/

/-- The fields of the `compiled_article` dict read by `compute_quality_score`,
with the defaults the source supplies through `dict.get`. -/
structure ArticleDict where
  article_type : String := "troubleshooting"
  solution : String := ""
  diagnosis : String := ""
  code_snippet : Option String := none
  confidence : ℚ := 0
  tags : List String := []
  thread_summary : String := ""
deriving Repr, DecidableEq

/-- Python `round(q, 2)` (round half to even), exact on rationals. -/
def roundHalfEven (q : ℚ) : ℤ :=
  if q - ⌊q⌋ < 1/2 then ⌊q⌋
  else if 1/2 < q - ⌊q⌋ then ⌊q⌋ + 1
  else if 2 ∣ ⌊q⌋ then ⌊q⌋ else ⌊q⌋ + 1

/-- Two-decimal rounding used by `compute_quality_score`. -/
def round2 (q : ℚ) : ℚ :=
  (roundHalfEven (q * 100) : ℚ) / 100

/-- `QUALITY_THRESHOLD = 0.7` from `quality_gate.py`. -/
def QUALITY_THRESHOLD : ℚ := 0.7

/-- `MAX_RETRIES = 3` from `quality_gate.py`. -/
def MAX_RETRIES : Nat := 3

/-- `compute_quality_score` from `api/services/extraction/nodes/quality_gate.py`.
`None` (and the empty dict, which carries exactly the defaults and scores 0
through the branches as well) maps to `0.0`; otherwise the type-aware weighted
sum, then `round(min(score, 1.0), 2)`. -/
def compute_quality_score : Option ArticleDict → ℚ
  | none => 0
  | some article =>
    let article_type := pyUpper article.article_type.toList
    let sol_len := article.solution.length
    let diag_len := article.diagnosis.length
    let snippet_len := match article.code_snippet with
      | some snippet => snippet.length
      | none => 0
    let confidence := article.confidence
    let tags := article.tags
    let summary := article.thread_summary
    let score : ℚ :=
      if article_type = "TROUBLESHOOTING".toList then
        (if sol_len > 200 then (0.25 : ℚ) else if sol_len > 100 then 0.15
          else if sol_len > 50 then 0.08 else 0)
        + (if snippet_len > 50 then (0.20 : ℚ) else if snippet_len > 0 then 0.10 else 0)
        + min (confidence * 0.20) 0.20
        + (if tags.length ≥ 5 then (0.15 : ℚ) else if tags.length ≥ 3 then 0.10
          else if tags.length ≥ 1 then 0.05 else 0)
        + (if diag_len > 80 then (0.10 : ℚ) else if diag_len > 30 then 0.05 else 0)
        + (if summary.length > 10 then (0.10 : ℚ) else 0)
      else
        (if sol_len > 200 then (0.35 : ℚ) else if sol_len > 100 then 0.25
          else if sol_len > 50 then 0.15 else 0)
        + min (confidence * 0.20) 0.20
        + (if tags.length ≥ 5 then (0.15 : ℚ) else if tags.length ≥ 3 then 0.10
          else if tags.length ≥ 1 then 0.05 else 0)
        + (if diag_len > 80 then (0.15 : ℚ) else if diag_len > 30 then 0.08 else 0)
        + (if summary.length > 10 then (0.10 : ℚ) else 0)
        + (if snippet_len > 50 then (0.05 : ℚ) else 0)
    round2 (min score 1)

/-- The two state fields produced by `quality_gate_node` and read by
`route_after_quality`. -/
structure GateState where
  quality_score : ℚ
  retry_count : Nat
deriving Repr, DecidableEq

/-- `quality_gate_node` from `quality_gate.py`: scores the compiled article and
increments `retry_count` exactly when the score is below the threshold. -/
def quality_gate_node (compiled_article : Option ArticleDict) (retry_count : Nat) : GateState :=
  let score := compute_quality_score compiled_article
  ⟨score, retry_count + (if score < QUALITY_THRESHOLD then 1 else 0)⟩

/-- `route_after_quality` from `quality_gate.py`: pass ends, fail re-enters the
compiler while `retry_count < MAX_RETRIES`, else rejects (also ends). -/
def route_after_quality (s : GateState) : String :=
  if QUALITY_THRESHOLD ≤ s.quality_score then "__end__"
  else if s.retry_count < MAX_RETRIES then "compiler"
  else "__end__"

/-- States observable after a quality-gate step in the compiler ↔ quality-gate
loop of `graph.py`: the first gate runs with `retry_count = 0` (the initial
state set in `api/tasks/process_messages.py`), and the gate runs again, after
another compiler attempt, exactly when `route_after_quality` chose
`"compiler"`. Each compiler attempt may produce any article or `None`. -/
inductive GateReachable : GateState → Prop where
  | first (a : Option ArticleDict) : GateReachable (quality_gate_node a 0)
  | next {s : GateState} (a : Option ArticleDict) :
      GateReachable s → route_after_quality s = "compiler" →
      GateReachable (quality_gate_node a s.retry_count)

/-! ## consent_checker.py -/

/-- A message dict as used by `filter_consented_messages` (only `author_hash`
is read; `content` stands for the rest of the payload). -/
structure ConsentMessage where
  author_hash : String
  content : String
deriving Repr, DecidableEq

/-- `get_consented_users` from `api/services/consent_checker.py`. The database
query result is the explicit parameter: `.ok rows` is the list of `user_hash`
values fetched (the source builds a set from them; a list with membership
lookup models it), `.error e` is any raised exception, which the source
catches, logs and turns into the empty set. -/
def get_consented_users (backend : Except String (List String)) : List String :=
  match backend with
  | .ok rows => rows
  | .error _ => []

/-- `filter_consented_messages` from `api/services/consent_checker.py`:
empty consent set short-circuits to `([], len(messages))`; otherwise the loop
keeps consented messages in order and counts the excluded ones. -/
def filter_consented_messages (backend : Except String (List String))
    (messages : List ConsentMessage) : List ConsentMessage × Nat :=
  let consented_users := get_consented_users backend
  if consented_users.isEmpty then
    ([], messages.length)
  else
    messages.foldl
      (fun (acc : List ConsentMessage × Nat) msg =>
        if consented_users.contains msg.author_hash then (acc.1 ++ [msg], acc.2)
        else (acc.1, acc.2 + 1))
      ([], 0)

/-! ## disentanglement.py and the disentangle node of graph.py -/

/-- `RawMessage` dataclass from `api/services/extraction/disentanglement.py`;
timestamps are epoch seconds. -/
structure RawMessage where
  id : String
  author_hash : String
  content : String
  timestamp : Int
  has_code : Bool := false
  reply_to : Option String := none
  mentions : List String := []
deriving Repr, DecidableEq

/-- Placeholder used to model Python's in-bounds list indexing. -/
def defaultMessage : RawMessage :=
  { id := "", author_hash := "", content := "", timestamp := 0 }

/-- `SIMILARITY_THRESHOLD = 0.45`. -/
def SIMILARITY_THRESHOLD : ℚ := 0.45

/-- `TEMPORAL_WINDOW = timedelta(hours=4)`, in seconds. -/
def TEMPORAL_WINDOW : Nat := 14400

/-- `SAME_AUTHOR_BOOST = 0.25`. -/
def SAME_AUTHOR_BOOST : ℚ := 0.25

/-- `ERROR_CODE_BOOST = 0.20`. -/
def ERROR_CODE_BOOST : ℚ := 0.20

/-- `SAME_AUTHOR_WINDOW = timedelta(minutes=10)`, in seconds. -/
def SAME_AUTHOR_WINDOW : Nat := 600

/-- `DisentanglementEngine._should_link`. The cosine-similarity matrix
produced by the external Sentence-BERT model enters as the parameter `sim`.
Python truthiness of `reply_to` (a non-empty string) is spelled out. -/
def should_link (sim : Nat → Nat → ℚ) (messages : List RawMessage) (i j : Nat) : Bool :=
  let msg_i := messages.getD i defaultMessage
  let msg_j := messages.getD j defaultMessage
  let time_delta := (msg_i.timestamp - msg_j.timestamp).natAbs
  if TEMPORAL_WINDOW < time_delta then false
  else if (match msg_j.reply_to with
           | some r => !r.isEmpty && r = msg_i.id
           | none => false) then true
  else if (match msg_i.reply_to with
           | some r => !r.isEmpty && r = msg_j.id
           | none => false) then true
  else if msg_j.mentions.contains msg_i.author_hash then true
  else if msg_i.mentions.contains msg_j.author_hash then true
  else
    let similarity := sim i j
    let similarity :=
      if msg_i.author_hash = msg_j.author_hash && time_delta ≤ SAME_AUTHOR_WINDOW then
        similarity + SAME_AUTHOR_BOOST
      else similarity
    let similarity :=
      if msg_i.has_code && msg_j.has_code then similarity + ERROR_CODE_BOOST
      else similarity
    SIMILARITY_THRESHOLD ≤ similarity

/-- The symmetric adjacency matrix built by `cluster` (step 3): the source sets
`adjacency[i][j] = adjacency[j][i] = True` for `i < j` with `_should_link`. -/
def adjacent (sim : Nat → Nat → ℚ) (messages : List RawMessage) (i j : Nat) : Bool :=
  if i < j then should_link sim messages i j
  else if j < i then should_link sim messages j i
  else false

/-- The BFS of `cluster` (step 4): pop from the queue front, skip visited
nodes, append the node to the component and enqueue its unvisited neighbours.
`fuel` only bounds the recursion; `cluster` passes enough for the loop to run
to completion exactly as in the source (total pops ≤ n² + n). -/
def bfsLoop (adj : Nat → Nat → Bool) (n : Nat) :
    Nat → List Nat → List Nat → List Nat → List Nat × List Nat
  | 0, _, visited, component => (visited, component)
  | _ + 1, [], visited, component => (visited, component)
  | fuel + 1, node :: rest, visited, component =>
    if visited.contains node then bfsLoop adj n fuel rest visited component
    else
      let visited' := visited ++ [node]
      let component' := component ++ [node]
      let nbrs := (List.range n).filter (fun nb => adj node nb && !(visited'.contains nb))
      bfsLoop adj n fuel (rest ++ nbrs) visited' component'

/-- Connected components of the adjacency graph, in the discovery order of the
source's `for start in range(n)` loop, with the shared `visited` set. -/
def clusterComponents (adj : Nat → Nat → Bool) (n : Nat) : List (List Nat) :=
  ((List.range n).foldl
    (fun (acc : List Nat × List (List Nat)) start =>
      if acc.1.contains start then acc
      else
        let r := bfsLoop adj n (n * n + n + 1) [start] acc.1 []
        (r.1, acc.2 ++ [r.2]))
    ([], [])).2

/-- Stable insertion into a sorted list: the new element goes before the first
element it compares less-or-equal to, hence after all earlier equal elements'
predecessors and before later ones. -/
def insertLe (le : α → α → Bool) (a : α) : List α → List α
  | [] => [a]
  | b :: t => if le a b then a :: b :: t else b :: insertLe le a t

/-- Stable sort by a boolean total preorder. Python's `list.sort` is stable,
and a stable sort's output is uniquely determined by the comparator, so
insertion sort models it exactly. -/
def stableSort (le : α → α → Bool) : List α → List α
  | [] => []
  | a :: t => insertLe le a (stableSort le t)

/-- `DisentanglementEngine.cluster`: empty and singleton short-circuits, then
components of the `_should_link` graph, each sorted by timestamp ascending
(Python's stable `list.sort`). -/
def cluster (sim : Nat → Nat → ℚ) (messages : List RawMessage) : List (List RawMessage) :=
  if messages.isEmpty then []
  else if messages.length = 1 then [messages]
  else
    let n := messages.length
    let comps := clusterComponents (adjacent sim messages) n
    comps.map (fun component =>
      let sorted := stableSort (fun a b =>
        decide ((messages.getD a defaultMessage).timestamp
          ≤ (messages.getD b defaultMessage).timestamp)) component
      sorted.map (fun idx => messages.getD idx defaultMessage))

/-- The `has_code="```" in m.get("content", "")` recomputation performed by
`disentangle_node` when it rebuilds `RawMessage` objects from state dicts. -/
def contentHasCode (content : String) : Bool :=
  pyContains content.toList "```".toList

/-- `disentangle_node` from `api/services/extraction/graph.py`: rebuild raw
messages (recomputing `has_code`), cluster them, keep threads with ≥ 2
messages, fall back to one thread of all messages when no such thread exists,
sort largest-first (Python's stable `sort(key=len, reverse=True)`), and set
`current_thread_idx = 0`. The node reads nothing else from the state; in
particular `skip_disentangle` is never consulted. -/
def disentangle_node (sim : Nat → Nat → ℚ) (state_messages : List RawMessage) :
    List (List RawMessage) × Nat :=
  let raw_messages := state_messages.map
    (fun m => { m with has_code := contentHasCode m.content })
  let threads := cluster sim raw_messages
  let thread_dicts := threads.filter (fun t => 2 ≤ t.length)
  let thread_dicts :=
    if thread_dicts.isEmpty then
      let all_msgs := threads.flatten
      if all_msgs.isEmpty then [] else [all_msgs]
    else thread_dicts
  (stableSort (fun a b => decide (b.length ≤ a.length)) thread_dicts, 0)

/-- First message of the C3 counterexample batch. -/
def c3m1 : RawMessage :=
  { id := "1", author_hash := "alice", content := "how do I fix this build error?",
    timestamp := 0 }

/-- Second message: an explicit reply to the first, 60 seconds later. -/
def c3m2 : RawMessage :=
  { id := "2", author_hash := "bob", content := "try clearing the cache",
    timestamp := 60, reply_to := some "1" }

/-- Third message: unrelated and far outside the 4-hour temporal window. -/
def c3m3 : RawMessage :=
  { id := "3", author_hash := "carol", content := "completely different topic",
    timestamp := 100000 }

/-- A similarity matrix that links nothing by itself (every entry 0); the C3
counterexample holds for every similarity matrix, since the first two messages
are linked by `reply_to` and the third is excluded by the temporal gate. -/
def simZero : Nat → Nat → ℚ := fun _ _ => 0

/-! ## SHA-256 (hashlib.sha256), over byte lists, with 32-bit words as Nat -/

/-- Word arithmetic modulus 2³². -/
def M32 : Nat := 4294967296

/-- Right rotation of a 32-bit word. -/
def rotr32 (x n : Nat) : Nat :=
  ((x >>> n) ||| (x <<< (32 - n))) % M32

/-- SHA-256 round constants. -/
def sha256K : List Nat :=
  [1116352408, 1899447441, 3049323471, 3921009573, 961987163, 1508970993,
   2453635748, 2870763221, 3624381080, 310598401, 607225278, 1426881987,
   1925078388, 2162078206, 2614888103, 3248222580, 3835390401, 4022224774,
   264347078, 604807628, 770255983, 1249150122, 1555081692, 1996064986,
   2554220882, 2821834349, 2952996808, 3210313671, 3336571891, 3584528711,
   113926993, 338241895, 666307205, 773529912, 1294757372, 1396182291,
   1695183700, 1986661051, 2177026350, 2456956037, 2730485921, 2820302411,
   3259730800, 3345764771, 3516065817, 3600352804, 4094571909, 275423344,
   430227734, 506948616, 659060556, 883997877, 958139571, 1322822218,
   1537002063, 1747873779, 1955562222, 2024104815, 2227730452, 2361852424,
   2428436474, 2756734187, 3204031479, 3329325298]

/-- SHA-256 initial hash value. -/
def sha256H0 : List Nat :=
  [1779033703, 3144134277, 1013904242, 2773480762, 1359893119, 2600822924,
   528734635, 1541459225]

/-- Big-endian 64-bit encoding of the bit length, as 8 bytes. -/
def toBE64 (n : Nat) : List Nat :=
  [n >>> 56 % 256, n >>> 48 % 256, n >>> 40 % 256, n >>> 32 % 256,
   n >>> 24 % 256, n >>> 16 % 256, n >>> 8 % 256, n % 256]

/-- SHA-256 padding: `0x80`, zeros to 56 mod 64, then the bit length. -/
def sha256pad (msg : List Nat) : List Nat :=
  let len := msg.length
  let zeros := (64 + 56 - ((len + 1) % 64)) % 64
  msg ++ [128] ++ List.replicate zeros 0 ++ toBE64 (len * 8)

/-- Split a list into chunks of `k` elements (`k > 0`; the padded message
length is a multiple of 64). -/
def chunksOf (k : Nat) : List α → List (List α)
  | [] => []
  | a :: t =>
    if h : k = 0 then [a :: t]
    else
      have : (a :: t).length - k < (a :: t).length := by
        simp only [List.length_cons]
        omega
      (a :: t).take k :: chunksOf k ((a :: t).drop k)
termination_by l => l.length

/-- Four big-endian bytes to one 32-bit word. -/
def wordOfBytes : List Nat → Nat
  | [a, b, c, d] => ((a * 256 + b) * 256 + c) * 256 + d
  | _ => 0

/-- Lowercase message-schedule sigma₀. -/
def ssig0 (x : Nat) : Nat := rotr32 x 7 ^^^ rotr32 x 18 ^^^ (x >>> 3)

/-- Lowercase message-schedule sigma₁. -/
def ssig1 (x : Nat) : Nat := rotr32 x 17 ^^^ rotr32 x 19 ^^^ (x >>> 10)

/-- Uppercase compression Sigma₀. -/
def bsig0 (x : Nat) : Nat := rotr32 x 2 ^^^ rotr32 x 13 ^^^ rotr32 x 22

/-- Uppercase compression Sigma₁. -/
def bsig1 (x : Nat) : Nat := rotr32 x 6 ^^^ rotr32 x 11 ^^^ rotr32 x 25

/-- Message schedule: extend 16 words to 64. -/
def sha256schedule (w : List Nat) (i : Nat) : List Nat :=
  match i with
  | 0 => w
  | i + 1 =>
    let w := sha256schedule w i
    let t := (ssig1 (w.getD (w.length - 2) 0) + w.getD (w.length - 7) 0
      + ssig0 (w.getD (w.length - 15) 0) + w.getD (w.length - 16) 0) % M32
    w ++ [t]

/-- One round of the SHA-256 compression function. -/
def sha256round (state : List Nat) (kw : Nat × Nat) : List Nat :=
  match state with
  | [a, b, c, d, e, f, g, h] =>
    let ch := (e &&& f) ^^^ ((M32 - 1 - e) &&& g)
    let maj := (a &&& b) ^^^ (a &&& c) ^^^ (b &&& c)
    let t1 := (h + bsig1 e + ch + kw.1 + kw.2) % M32
    let t2 := (bsig0 a + maj) % M32
    [(t1 + t2) % M32, a, b, c, (d + t1) % M32, e, f, g]
  | s => s

/-- Process one 64-byte chunk. -/
def sha256chunk (h : List Nat) (chunk : List Nat) : List Nat :=
  let w16 := (chunksOf 4 chunk).map wordOfBytes
  let w := sha256schedule w16 48
  let s := (sha256K.zip w).foldl sha256round h
  (h.zip s).map (fun p => (p.1 + p.2) % M32)

/-- One byte as two lowercase hex digits. -/
def hexByte (n : Nat) : List Char :=
  let digit := fun (d : Nat) =>
    if d < 10 then Char.ofNat (48 + d) else Char.ofNat (87 + d)
  [digit (n / 16 % 16), digit (n % 16)]

/-- One 32-bit word as eight lowercase hex digits. -/
def hexWord (n : Nat) : List Char :=
  hexByte (n >>> 24 % 256) ++ hexByte (n >>> 16 % 256) ++ hexByte (n >>> 8 % 256)
    ++ hexByte (n % 256)

/-- `hashlib.sha256(data).hexdigest()`: the lowercase hex SHA-256 digest of a
byte list. -/
def sha256hex (data : List Nat) : String :=
  let hs := (chunksOf 64 (sha256pad data)).foldl sha256chunk sha256H0
  ⟨(hs.map hexWord).flatten⟩

/-! ## c2pa_signer.py and export_dataset.py -/

/-- UTF-8 encoding of one character. -/
def utf8EncodeChar (c : Char) : List Nat :=
  let n := c.toNat
  if n < 128 then [n]
  else if n < 2048 then [192 + n / 64, 128 + n % 64]
  else if n < 65536 then [224 + n / 4096, 128 + n / 64 % 64, 128 + n % 64]
  else [240 + n / 262144, 128 + n / 4096 % 64, 128 + n / 64 % 64, 128 + n % 64]

/-- Python `str.encode("utf-8")`. -/
def utf8Encode (s : String) : List Nat :=
  s.toList.flatMap utf8EncodeChar

/-- `compute_content_hash` from `api/services/c2pa_signer.py` applied to bytes
(the `export_dataset` call site passes `content_bytes`). -/
def compute_content_hash (data : List Nat) : String :=
  "sha256:" ++ sha256hex data

/-- The fields of the manifest built by `create_manifest` in
`api/services/c2pa_signer.py` that the export claims concern: the `dc` block
and the `neuroweave.provenance` assertion data. -/
structure C2paManifest where
  title : String
  format : String
  source : String
  record_count : Nat
  content_hash : String
  pii_redacted : Bool
  consent_verified : Bool
deriving Repr, DecidableEq

/-- `create_manifest` from `api/services/c2pa_signer.py`. -/
def create_manifest (export_id : Nat) (record_count : Nat) (content_hash : String)
    (source_server : String) : C2paManifest :=
  { title := "NeuroWeave Export #" ++ toString export_id
  , format := "application/jsonl"
  , source := "discord:" ++ source_server
  , record_count := record_count
  , content_hash := content_hash
  , pii_redacted := true
  , consent_verified := true }

/-- What `export_dataset` leaves behind: the bytes written to
`export_<id>.jsonl` and the manifest written to `export_<id>.c2pa.json`. -/
structure ExportResult where
  file_bytes : List Nat
  manifest : C2paManifest
deriving Repr, DecidableEq

/-- The packaging tail of `export_dataset` from `api/tasks/export_dataset.py`,
as a function of the serialized article records (`lines`, one JSON string per
article, produced by `json.dumps`): `content = "\n".join(lines)`,
`content_bytes = content.encode("utf-8")`, `file_path.write_bytes(content_bytes)`,
`content_hash = compute_content_hash(content_bytes)`, then the manifest. -/
def export_dataset (export_id : Nat) (server_id : Nat) (lines : List String) : ExportResult :=
  let content := String.intercalate "\n" lines
  let content_bytes := utf8Encode content
  let content_hash := compute_content_hash content_bytes
  let manifest := create_manifest export_id lines.length content_hash (toString server_id)
  { file_bytes := content_bytes, manifest := manifest }

/-! ## anonymizer.py

The source's patterns are Python `re` regexes. They are embedded as abstract
syntax trees over character classes, matched by a backtracking matcher that
returns candidate match ends in the engine's preference order (greedy
quantifiers longest-first, alternatives left-to-right), so that the head of
the list is exactly the match Python's backtracking engine produces. All
repetitions in the source's patterns are either over single-character classes
(`starCls`/`minCls`) or bounded (unrolled through `opt`), which keeps the
matcher structurally recursive. Inputs are ASCII; `\w`, `\d`, `\s` are
modelled by their ASCII classes. -/

/-- Regex abstract syntax: classes, sequencing, alternation, greedy option,
greedy star / at-least-`lo` repetition over a class, negative lookahead,
single-character negative lookbehind, and the `\b` word-boundary assertion. -/
inductive Regex where
  | eps : Regex
  | cls : (Char → Bool) → Regex
  | seq : Regex → Regex → Regex
  | alt : Regex → Regex → Regex
  | opt : Regex → Regex
  | starCls : (Char → Bool) → Regex
  | minCls : (Char → Bool) → Nat → Regex
  | nla : Regex → Regex
  | nlb : (Char → Bool) → Regex
  | wb : Regex

/-- ASCII uppercase letter. -/
def isAsciiUpper (c : Char) : Bool := 'A' ≤ c && c ≤ 'Z'

/-- ASCII lowercase letter. -/
def isAsciiLower (c : Char) : Bool := 'a' ≤ c && c ≤ 'z'

/-- ASCII letter. -/
def isAsciiAlpha (c : Char) : Bool := isAsciiUpper c || isAsciiLower c

/-- ASCII digit (`\d`). -/
def isAsciiDigit (c : Char) : Bool := '0' ≤ c && c ≤ '9'

/-- ASCII letter or digit. -/
def isAsciiAlnum (c : Char) : Bool := isAsciiAlpha c || isAsciiDigit c

/-- Word character for `\b` (`\w`): `[A-Za-z0-9_]`. -/
def isWordChar (c : Char) : Bool := isAsciiAlnum c || c = '_'

/-- Is the character at index `i` a word character (false past the ends)? -/
def wordAt (s : List Char) (i : Nat) : Bool :=
  match s[i]? with
  | some c => isWordChar c
  | none => false

/-- The `\b` assertion at position `i`. -/
def wordBoundary (s : List Char) (i : Nat) : Bool :=
  (if i = 0 then false else wordAt s (i - 1)) != wordAt s i

/-- Length of the run of characters satisfying `p` starting at `i`. -/
def runLen (s : List Char) (p : Char → Bool) (i : Nat) : Nat :=
  ((s.drop i).takeWhile p).length

/-- All candidate end positions of a match of the pattern starting at `i`,
in the Python engine's backtracking preference order. -/
def matchEnds (s : List Char) : Regex → Nat → List Nat
  | .eps, i => [i]
  | .cls p, i =>
    match s[i]? with
    | some c => if p c then [i + 1] else []
    | none => []
  | .seq a b, i => (matchEnds s a i).flatMap (matchEnds s b)
  | .alt a b, i => matchEnds s a i ++ matchEnds s b i
  | .opt a, i => matchEnds s a i ++ [i]
  | .starCls p, i =>
    let k := runLen s p i
    (List.range (k + 1)).map (fun j => i + (k - j))
  | .minCls p lo, i =>
    let k := runLen s p i
    if k < lo then [] else (List.range (k - lo + 1)).map (fun j => i + (k - j))
  | .nla a, i => if (matchEnds s a i).isEmpty then [i] else []
  | .nlb p, i =>
    if i = 0 then [i]
    else
      match s[i - 1]? with
      | some c => if p c then [] else [i]
      | none => [i]
  | .wb, i => if wordBoundary s i then [i] else []

/-- Single literal character. -/
def chr (c : Char) : Regex := .cls (fun x => x = c)

/-- Literal character sequence. -/
def lit (cs : List Char) : Regex := cs.foldr (fun c r => .seq (chr c) r) .eps

/-- Greedy `+` over a character class. -/
def plusCls (p : Char → Bool) : Regex := .seq (.cls p) (.starCls p)

/-- Exactly-`n` repetition `a{n}`. -/
def repFix (a : Regex) : Nat → Regex
  | 0 => .eps
  | n + 1 => .seq a (repFix a n)

/-- Greedy at-most-`n` repetition (nested options, longest first). -/
def optUpTo (a : Regex) : Nat → Regex
  | 0 => .eps
  | n + 1 => .opt (.seq a (optUpTo a n))

/-- Greedy bounded repetition `a{lo,hi}`. -/
def repRange (a : Regex) (lo hi : Nat) : Regex :=
  .seq (repFix a lo) (optUpTo a (hi - lo))

/-- `_EMAIL_RE` local-part class `[A-Za-z0-9._%+-]`. -/
def emailLocalCls (c : Char) : Bool :=
  isAsciiAlnum c || c = '.' || c = '_' || c = '%' || c = '+' || c = '-'

/-- `_EMAIL_RE` domain class `[A-Za-z0-9.-]`. -/
def emailDomainCls (c : Char) : Bool := isAsciiAlnum c || c = '.' || c = '-'

/-- `_EMAIL_RE` top-level-domain class `[A-Z|a-z]` (the source's class contains
a literal `|`). -/
def emailTldCls (c : Char) : Bool := isAsciiUpper c || c = '|' || isAsciiLower c

/-- `_EMAIL_RE = \b[A-Za-z0-9._%+-]+@[A-Za-z0-9.-]+\.[A-Z|a-z]{2,}\b`. -/
def EMAIL_RE : Regex :=
  .seq .wb (.seq (plusCls emailLocalCls) (.seq (chr '@') (.seq (plusCls emailDomainCls)
    (.seq (chr '.') (.seq (.minCls emailTldCls 2) .wb)))))

/-- One IPv4 octet `25[0-5]|2[0-4]\d|[01]?\d\d?`. -/
def octetRE : Regex :=
  .alt (.seq (lit "25".toList) (.seq (.cls (fun c => '0' ≤ c && c ≤ '5')) .eps))
    (.alt (.seq (chr '2') (.seq (.cls (fun c => '0' ≤ c && c ≤ '4')) (.seq (.cls isAsciiDigit) .eps)))
      (.seq (.opt (.cls (fun c => c = '0' || c = '1')))
        (.seq (.cls isAsciiDigit) (.opt (.cls isAsciiDigit)))))

/-- `_IPV4_RE = \b(?:(?:25[0-5]|2[0-4]\d|[01]?\d\d?)\.){3}(?:...)\b`. -/
def IPV4_RE : Regex :=
  .seq .wb (.seq (repFix (.seq octetRE (chr '.')) 3) (.seq octetRE .wb))

/-- Hex digit class `[0-9a-fA-F]`. -/
def hexCls (c : Char) : Bool :=
  isAsciiDigit c || ('a' ≤ c && c ≤ 'f') || ('A' ≤ c && c ≤ 'F')

/-- `[0-9a-fA-F]{1,4}`. -/
def hexQuad : Regex := repRange (.cls hexCls) 1 4

/-- `_IPV6_RE`, the three-alternative pattern of the source:
`\b(?:H{1,4}:){7}H{1,4}\b | \b(?:H{1,4}:){1,7}:\b | \b::(?:H{1,4}:){0,5}H{1,4}\b`. -/
def IPV6_RE : Regex :=
  .alt (.seq .wb (.seq (repFix (.seq hexQuad (chr ':')) 7) (.seq hexQuad .wb)))
    (.alt (.seq .wb (.seq (repRange (.seq hexQuad (chr ':')) 1 7) (.seq (chr ':') .wb)))
      (.seq .wb (.seq (lit "::".toList)
        (.seq (repRange (.seq hexQuad (chr ':')) 0 5) (.seq hexQuad .wb)))))

/-- Phone separator class `[-.\s]` (`\s` as its ASCII class). -/
def sepCls (c : Char) : Bool := c = '-' || c = '.' || pySpace c

/-- `_PHONE_RE = (?<!\d)(?:\+?\d{1,3}[-.\s]?)?(?:\(?\d{2,4}\)?[-.\s]?)`
`\d{3,4}[-.\s]?\d{3,4}(?!\d)`. -/
def PHONE_RE : Regex :=
  .seq (.nlb isAsciiDigit)
    (.seq (.opt (.seq (.opt (chr '+'))
        (.seq (repRange (.cls isAsciiDigit) 1 3) (.opt (.cls sepCls)))))
      (.seq (.seq (.opt (chr '(')) (.seq (repRange (.cls isAsciiDigit) 2 4)
          (.seq (.opt (chr ')')) (.opt (.cls sepCls)))))
        (.seq (repRange (.cls isAsciiDigit) 3 4)
          (.seq (.opt (.cls sepCls))
            (.seq (repRange (.cls isAsciiDigit) 3 4) (.nla (.cls isAsciiDigit)))))))

/-- Scheme continuation class `[a-zA-Z0-9+.-]`. -/
def schemeCls (c : Char) : Bool := isAsciiAlnum c || c = '+' || c = '.' || c = '-'

/-- `_URL_WITH_AUTH_RE = [a-zA-Z][a-zA-Z0-9+.-]*://[^:]+:[^@]+@[^\s]+`. -/
def URL_WITH_AUTH_RE : Regex :=
  .seq (.cls isAsciiAlpha) (.seq (.starCls schemeCls) (.seq (lit "://".toList)
    (.seq (plusCls (fun c => c != ':')) (.seq (chr ':') (.seq (plusCls (fun c => c != '@'))
      (.seq (chr '@') (plusCls (fun c => !pySpace c))))))))

/-- First path-segment class `[A-Za-z0-9._-]`. -/
def pathNameCls (c : Char) : Bool :=
  isAsciiAlnum c || c = '.' || c = '_' || c = '-'

/-- Tail path class: `pathNameCls` plus the slash character. -/
def pathTailCls (c : Char) : Bool :=
  isAsciiAlnum c || c = '.' || c = '_' || c = '/' || c = '-'

/-- `_FILE_PATH_RE = (?:/(?:Users|home|root)/[A-Za-z0-9._-]+)(?:/TAIL*)?` with
`TAIL` the class `pathTailCls`. -/
def FILE_PATH_RE : Regex :=
  .seq (chr '/') (.seq (.alt (lit "Users".toList) (.alt (lit "home".toList) (lit "root".toList)))
    (.seq (chr '/') (.seq (plusCls pathNameCls)
      (.opt (.seq (chr '/') (.starCls pathTailCls))))))

/-- Slack token middle class `[bpsar]`. -/
def xoxCls (c : Char) : Bool := c = 'b' || c = 'p' || c = 's' || c = 'a' || c = 'r'

/-- Class `[A-Za-z0-9-]`. -/
def alnumDashCls (c : Char) : Bool := isAsciiAlnum c || c = '-'

/-- Class `[A-Za-z0-9_-]`. -/
def alnumUscoreDashCls (c : Char) : Bool := isAsciiAlnum c || c = '_' || c = '-'

/-- Class `[A-Z0-9]`. -/
def upperDigitCls (c : Char) : Bool := isAsciiUpper c || isAsciiDigit c

/-- `_API_KEY_RE`: `\b(?:sk-[A-Za-z0-9]{20,}|ghp_[A-Za-z0-9]{20,}`
`|xox[bpsar]-[A-Za-z0-9-]+|AIza[A-Za-z0-9_-]{35}|AKIA[A-Z0-9]{16})\b`. -/
def API_KEY_RE : Regex :=
  .seq .wb (.seq
    (.alt (.seq (lit "sk-".toList) (.minCls isAsciiAlnum 20))
      (.alt (.seq (lit "ghp_".toList) (.minCls isAsciiAlnum 20))
        (.alt (.seq (lit "xox".toList) (.seq (.cls xoxCls) (.seq (chr '-') (plusCls alnumDashCls))))
          (.alt (.seq (lit "AIza".toList) (repFix (.cls alnumUscoreDashCls) 35))
            (.seq (lit "AKIA".toList) (repFix (.cls upperDigitCls) 16))))))
    .wb)

/-- `_DISCORD_MENTION_RE = @[A-Za-z0-9_]{2,32}(?:#\d{4})?`. -/
def DISCORD_MENTION_RE : Regex :=
  .seq (chr '@') (.seq (repRange (.cls isWordChar) 2 32)
    (.opt (.seq (chr '#') (repFix (.cls isAsciiDigit) 4))))

/-- One regex match: start and end offsets. -/
structure RMatch where
  mstart : Nat
  mend : Nat
deriving Repr, DecidableEq

/-- Leftmost match at or after `pos` (the preferred end at the first position
that matches, exactly as Python's `re` scan). `fuel` bounds the scan and is
always passed as at least the remaining positions. -/
def scanFrom (pat : Regex) (s : List Char) : Nat → Nat → Option RMatch
  | _, 0 => none
  | pos, fuel + 1 =>
    if s.length < pos then none
    else
      match (matchEnds s pat pos).head? with
      | some e => some ⟨pos, e⟩
      | none => scanFrom pat s (pos + 1) fuel

/-- Python `pattern.finditer`: non-overlapping leftmost matches, resuming
after each match (one past it when the match is empty). -/
def finditerFrom (pat : Regex) (s : List Char) : Nat → Nat → List RMatch
  | _, 0 => []
  | pos, fuel + 1 =>
    match scanFrom pat s pos (s.length + 1 - pos) with
    | none => []
    | some m =>
      m :: finditerFrom pat s (if m.mstart < m.mend then m.mend else m.mend + 1) fuel

/-- All matches of a pattern, as `list(pattern.finditer(result))`. -/
def finditer (pat : Regex) (s : List Char) : List RMatch :=
  finditerFrom pat s 0 (s.length + 1)

/-- One applied redaction, mirroring the dict appended by `anonymize`
(`type`, `original`, `replacement`, `start`, `end`). -/
structure Redaction where
  rtype : String
  original : List Char
  replacement : List Char
  rstart : Nat
  rend : Nat
deriving Repr, DecidableEq

/-- Python slice `s[a:b]`. -/
def sliceList (s : List Char) (a b : Nat) : List Char := (s.take b).drop a

/-- `len(original.replace(" ", "").replace("-", ""))`: the phone-candidate
length after removing spaces and hyphens. -/
def phoneNormLen (original : List Char) : Nat :=
  (original.filter (fun c => !(c = ' ' || c = '-'))).length

/-- `_PATTERNS` registry from `anonymizer.py`, in source order. -/
def ANON_PATTERNS : List (String × Regex × List Char) :=
  [("URL_AUTH", URL_WITH_AUTH_RE, "[URL_REDACTED]".toList),
   ("EMAIL", EMAIL_RE, "[EMAIL]".toList),
   ("IPV4", IPV4_RE, "[IP]".toList),
   ("IPV6", IPV6_RE, "[IP]".toList),
   ("PHONE", PHONE_RE, "[PHONE]".toList),
   ("FILE_PATH", FILE_PATH_RE, "[PATH]".toList),
   ("API_KEY", API_KEY_RE, "[API_KEY]".toList),
   ("DISCORD_MENTION", DISCORD_MENTION_RE, "[USER]".toList)]

/-- The body of the `for match in reversed(matches)` loop of `anonymize`.
`snapshot` is the string `finditer` ran on (the match object's subject, from
which `match.group()` is taken); the skip guards mirror the source, including
the Python operator precedence of
`pii_type == "IPV4" and original.startswith("127.") or original == "0.0.0.0"`. -/
def processOne (pii_type : String) (replacement : List Char) (snapshot : List Char)
    (acc : List Char × List Redaction) (m : RMatch) : List Char × List Redaction :=
  let original := sliceList snapshot m.mstart m.mend
  if pii_type = "PHONE" && decide (phoneNormLen original < 7) then acc
  else if (pii_type = "IPV4" && "127.".toList.isPrefixOf original)
      || original = "0.0.0.0".toList then acc
  else
    (acc.1.take m.mstart ++ replacement ++ acc.1.drop m.mend,
     acc.2 ++ [⟨pii_type, original, replacement, m.mstart, m.mend⟩])

/-- One iteration of the `for pii_type, pattern, replacement in _PATTERNS`
loop: find all matches in the current text, then replace them in reverse
order, recording the redactions that are not skipped. -/
def applyPattern (acc : List Char × List Redaction) (p : String × Regex × List Char) :
    List Char × List Redaction :=
  let ms := finditer p.2.1 acc.1
  ms.reverse.foldl (processOne p.1 p.2.2 acc.1) acc

/-- `anonymize` from `api/services/anonymizer.py`: fold the pattern registry
over the text, accumulating the redaction list. -/
def anonymize (text : List Char) : List Char × List Redaction :=
  ANON_PATTERNS.foldl applyPattern (text, [])

/-- The policy exceptions a recorded redaction always satisfies: an IPv4-rule
redaction is never a loopback (`127.`-prefixed) address, no redaction of any
rule has original text `0.0.0.0`, and a phone redaction is at least 7
characters long once spaces and hyphens are removed. -/
def RedactionGuard (r : Redaction) : Prop :=
  (r.rtype = "IPV4" → "127.".toList.isPrefixOf r.original = false) ∧
  r.original ≠ "0.0.0.0".toList ∧
  (r.rtype = "PHONE" → 7 ≤ phoneNormLen r.original)

/-! ## Theorems -/

/-- C1: the claim states the evaluator → compiler edge follows the type-aware
gate (GUIDE and DISCUSSION_SUMMARY always pass; QUESTION_ANSWER passes iff
`has_solution`; TROUBLESHOOTING passes on any two of `has_solution`,
`has_code`, `is_resolved`). The code ignores `article_type` entirely and
requires `has_code` unconditionally: each state below must route to
`"compiler"` under the claim, yet the code suspends with `"__end__"`
(`tests/pipeline/test_evaluator_expanded.py` asserts the claimed gate and
fails against this code). -/
theorem c1_route_after_evaluation_ignores_type :
    route_after_evaluation ⟨"GUIDE", some ⟨false, false, false, ""⟩⟩ = "__end__" ∧
    route_after_evaluation ⟨"DISCUSSION_SUMMARY", some ⟨false, false, false, ""⟩⟩ = "__end__" ∧
    route_after_evaluation ⟨"QUESTION_ANSWER", some ⟨true, false, false, ""⟩⟩ = "__end__" ∧
    route_after_evaluation ⟨"TROUBLESHOOTING", some ⟨true, false, true, ""⟩⟩ = "__end__" := by
  decide

/-- C2: the claim states the router emits a classification from
{NOISE, TROUBLESHOOTING, QUESTION_ANSWER, GUIDE, DISCUSSION_SUMMARY} with
QUESTION_ANSWER as the ambiguity default. The code maps the classifier
response `"TROUBLESHOOTING"` (and every other non-NOISE response, including
unmappable ones) to `"TECHNICAL"`, a label outside the claimed closed set
(`state.py` declares the five-label set and `tests/pipeline/test_router*.py`
assert it, failing against this code, which also never sets `article_type`). -/
theorem c2_router_emits_outside_label_set :
    router_node_classification "TROUBLESHOOTING" = "TECHNICAL" ∧
    "TECHNICAL" ∉ NOISE_OR_ARTICLE ∧
    router_node_classification "GUIDE" = "TECHNICAL" ∧
    router_node_classification "unclear response here" = "TECHNICAL" := by
  decide

/-- C4 counterexample: the claim says `compute_quality_score` returns a value
in `[0, 1]` for any article dictionary including arbitrary field values, but
an article whose `confidence` field is `-10` scores `-2`. -/
theorem c4_counterexample_negative_confidence :
    compute_quality_score (some { confidence := -10 }) = -2 ∧
    ¬ (0 ≤ compute_quality_score (some { confidence := -10 })) := by
  constructor
  · norm_num [compute_quality_score, pyUpper, round2, roundHalfEven]
  · norm_num [compute_quality_score, pyUpper, round2, roundHalfEven]

/-- Helper: `roundHalfEven` returns either the floor or the floor plus one. -/
theorem roundHalfEven_eq_floor_or_succ (q : ℚ) :
    roundHalfEven q = ⌊q⌋ ∨ roundHalfEven q = ⌊q⌋ + 1 := by
  unfold roundHalfEven
  split_ifs <;> simp

/-- Helper: when the fractional part is below one half, `roundHalfEven` is the
floor. -/
theorem roundHalfEven_of_frac_lt (q : ℚ) (h : q - ⌊q⌋ < 1/2) :
    roundHalfEven q = ⌊q⌋ := by
  unfold roundHalfEven
  rw [if_pos h]

/-- Helper: two-decimal rounding maps `[0, 1]` into `[0, 1]`. -/
theorem round2_bounds (x : ℚ) (h0 : 0 ≤ x) (h1 : x ≤ 1) :
    0 ≤ round2 x ∧ round2 x ≤ 1 := by
  have hy1 : x * 100 ≤ 100 := by linarith
  have hf0 : (0 : ℤ) ≤ ⌊x * 100⌋ := Int.floor_nonneg.mpr (by linarith)
  have hf1 : ⌊x * 100⌋ ≤ 100 := by
    have h100 : ⌊(100 : ℚ)⌋ = 100 := by norm_num
    calc ⌊x * 100⌋ ≤ ⌊(100 : ℚ)⌋ := Int.floor_le_floor hy1
    _ = 100 := h100
  have hr0 : (0 : ℤ) ≤ roundHalfEven (x * 100) := by
    rcases roundHalfEven_eq_floor_or_succ (x * 100) with h | h <;> omega
  have hr : roundHalfEven (x * 100) ≤ 100 := by
    rcases roundHalfEven_eq_floor_or_succ (x * 100) with h | h
    · omega
    · rcases lt_or_le ⌊x * 100⌋ 100 with hlt | hge
      · omega
      · have hf : ⌊x * 100⌋ = 100 := le_antisymm hf1 hge
        have hfrac : x * 100 - (⌊x * 100⌋ : ℚ) < 1/2 := by
          rw [hf]
          push_cast
          linarith
        have := roundHalfEven_of_frac_lt (x * 100) hfrac
        omega
  constructor
  · unfold round2
    apply div_nonneg _ (by norm_num)
    exact_mod_cast hr0
  · unfold round2
    rw [div_le_one (by norm_num)]
    exact_mod_cast hr

/-- Helper: the raw (pre-rounding) quality score is nonnegative whenever the
article's confidence is nonnegative. -/
theorem quality_addends_nonneg (a : ArticleDict) (h : 0 ≤ a.confidence) :
    0 ≤ min (a.confidence * 0.20) 0.20 := by
  apply le_min
  · positivity
  · norm_num

/-- C4 amended: for every article whose `confidence` is nonnegative (the
schema's invariant; the counterexample shows it is needed), the score lies in
`[0, 1]` and is an integer multiple of one hundredth, and `None` scores `0`. -/
theorem c4_amended_bounds (a : ArticleDict) (h : 0 ≤ a.confidence) :
    (0 ≤ compute_quality_score (some a) ∧ compute_quality_score (some a) ≤ 1 ∧
      ∃ k : ℤ, compute_quality_score (some a) = (k : ℚ) / 100) ∧
    compute_quality_score none = 0 := by
  have hmin := quality_addends_nonneg a h
  refine ⟨?_, rfl⟩
  have hscore : ∃ s : ℚ, compute_quality_score (some a) = round2 (min s 1) ∧ 0 ≤ s := by
    simp only [compute_quality_score]
    split
    · refine ⟨_, rfl, ?_⟩
      have h1 : (0:ℚ) ≤ (if a.solution.length > 200 then (0.25 : ℚ)
          else if a.solution.length > 100 then 0.15
          else if a.solution.length > 50 then 0.08 else 0) := by
        split_ifs <;> norm_num
      have h2 : (0:ℚ) ≤ (if (match a.code_snippet with
            | some snippet => snippet.length
            | none => 0) > 50 then (0.20 : ℚ)
          else if (match a.code_snippet with
            | some snippet => snippet.length
            | none => 0) > 0 then 0.10 else 0) := by
        split_ifs <;> norm_num
      have h3 : (0:ℚ) ≤ (if a.tags.length ≥ 5 then (0.15 : ℚ)
          else if a.tags.length ≥ 3 then 0.10
          else if a.tags.length ≥ 1 then 0.05 else 0) := by
        split_ifs <;> norm_num
      have h4 : (0:ℚ) ≤ (if a.diagnosis.length > 80 then (0.10 : ℚ)
          else if a.diagnosis.length > 30 then 0.05 else 0) := by
        split_ifs <;> norm_num
      have h5 : (0:ℚ) ≤ (if a.thread_summary.length > 10 then (0.10 : ℚ) else 0) := by
        split_ifs <;> norm_num
      linarith
    · refine ⟨_, rfl, ?_⟩
      have h1 : (0:ℚ) ≤ (if a.solution.length > 200 then (0.35 : ℚ)
          else if a.solution.length > 100 then 0.25
          else if a.solution.length > 50 then 0.15 else 0) := by
        split_ifs <;> norm_num
      have h3 : (0:ℚ) ≤ (if a.tags.length ≥ 5 then (0.15 : ℚ)
          else if a.tags.length ≥ 3 then 0.10
          else if a.tags.length ≥ 1 then 0.05 else 0) := by
        split_ifs <;> norm_num
      have h4 : (0:ℚ) ≤ (if a.diagnosis.length > 80 then (0.15 : ℚ)
          else if a.diagnosis.length > 30 then 0.08 else 0) := by
        split_ifs <;> norm_num
      have h5 : (0:ℚ) ≤ (if a.thread_summary.length > 10 then (0.10 : ℚ) else 0) := by
        split_ifs <;> norm_num
      have h6 : (0:ℚ) ≤ (if (match a.code_snippet with
            | some snippet => snippet.length
            | none => 0) > 50 then (0.05 : ℚ) else 0) := by
        split_ifs <;> norm_num
      linarith
  obtain ⟨s, hs, hs0⟩ := hscore
  rw [hs]
  have hb := round2_bounds (min s 1) (le_min hs0 zero_le_one) (min_le_right s 1)
  exact ⟨hb.1, hb.2, roundHalfEven (min s 1 * 100), rfl⟩

/-- C4 witness: the amended theorem applied to the all-defaults article. -/
theorem c4_amended_bounds_witness :
    (0 ≤ compute_quality_score (some {}) ∧ compute_quality_score (some {}) ≤ 1 ∧
      ∃ k : ℤ, compute_quality_score (some {}) = (k : ℚ) / 100) ∧
    compute_quality_score none = 0 :=
  c4_amended_bounds {} (by norm_num)

/-- Helper: the quality-gate routing only re-enters the compiler while the
retry counter is below `MAX_RETRIES`. -/
theorem route_after_quality_compiler_imp (s : GateState)
    (h : route_after_quality s = "compiler") : s.retry_count < MAX_RETRIES := by
  unfold route_after_quality at h
  split_ifs at h with h1 h2
  · simp at h
  · exact h2
  · simp at h

/-- Helper: every state reachable in the compiler ↔ quality-gate loop has
`retry_count ≤ 3`. -/
theorem gate_reachable_retry_le (s : GateState) (h : GateReachable s) :
    s.retry_count ≤ 3 := by
  induction h with
  | first a =>
    simp only [quality_gate_node]
    split <;> omega
  | next a _ hroute ih =>
    have hlt := route_after_quality_compiler_imp _ hroute
    simp only [quality_gate_node]
    unfold MAX_RETRIES at hlt
    split <;> omega

/-- C5: in the quality-gate loop the gate leaves `retry_count` unchanged on a
passing score, increments it by exactly one on a failing score, re-enters the
compiler only while `retry_count < MAX_RETRIES = 3`, and every reachable
observable state satisfies `retry_count ≤ 3`. -/
theorem c5_retry_discipline :
    (∀ (a : Option ArticleDict) (rc : Nat),
        (QUALITY_THRESHOLD ≤ compute_quality_score a →
          (quality_gate_node a rc).retry_count = rc) ∧
        (compute_quality_score a < QUALITY_THRESHOLD →
          (quality_gate_node a rc).retry_count = rc + 1)) ∧
    (∀ s : GateState, route_after_quality s = "compiler" →
        s.retry_count < MAX_RETRIES) ∧
    (∀ s : GateState, GateReachable s → s.retry_count ≤ 3) := by
  refine ⟨fun a rc => ⟨fun hp => ?_, fun hf => ?_⟩,
    route_after_quality_compiler_imp, gate_reachable_retry_le⟩
  · simp [quality_gate_node, not_lt.mpr hp]
  · simp [quality_gate_node, hf]

/-- C5 witness: the bound instantiated on the state after a first gate run on
a `None` article, whose reachability is discharged by the loop's base case. -/
theorem c5_retry_discipline_witness :
    (quality_gate_node none 0).retry_count ≤ 3 :=
  c5_retry_discipline.2.2 (quality_gate_node none 0) (GateReachable.first none)

/-- C6: the consent check is fail-closed: a backend error yields the empty
consented set, and filtering any batch against it keeps nothing and reports
the whole batch as excluded, without raising. -/
theorem c6_fail_closed (err : String) (messages : List ConsentMessage) :
    get_consented_users (.error err) = [] ∧
    filter_consented_messages (.error err) messages = ([], messages.length) := by
  exact ⟨rfl, rfl⟩

/-- Helper: the filtering loop of `filter_consented_messages` keeps exactly
the consented messages in order and counts the rest. -/
theorem consent_fold_spec (consented : List String) (msgs : List ConsentMessage)
    (k : List ConsentMessage) (n : Nat) :
    msgs.foldl
      (fun (acc : List ConsentMessage × Nat) msg =>
        if consented.contains msg.author_hash then (acc.1 ++ [msg], acc.2)
        else (acc.1, acc.2 + 1))
      (k, n)
    = (k ++ msgs.filter (fun m => consented.contains m.author_hash),
       n + (msgs.length - (msgs.filter (fun m => consented.contains m.author_hash)).length)) := by
  induction msgs generalizing k n with
  | nil => simp
  | cons m ms ih =>
    have hle := List.length_filter_le (fun m => consented.contains m.author_hash) ms
    by_cases hp : consented.contains m.author_hash
    · simp only [List.foldl_cons, hp, if_true, ih, List.filter_cons, List.length_cons,
        Prod.mk.injEq]
      refine ⟨by simp, by omega⟩
    · simp only [List.foldl_cons, hp, Bool.false_eq_true, if_false, ih, List.filter_cons,
        List.length_cons, Prod.mk.injEq]
      refine ⟨by simp, by omega⟩

/-- C10: for every backend state and message batch, the kept list is exactly
the subsequence of input messages whose `author_hash` is consented, in input
order, and the excluded count is the batch size minus the kept size. -/
theorem c10_filter_exact (backend : Except String (List String))
    (messages : List ConsentMessage) :
    (filter_consented_messages backend messages).1
      = messages.filter
          (fun m => (get_consented_users backend).contains m.author_hash) ∧
    (filter_consented_messages backend messages).2
      = messages.length - (filter_consented_messages backend messages).1.length := by
  unfold filter_consented_messages
  by_cases h : (get_consented_users backend).isEmpty
  · rw [List.isEmpty_iff] at h
    simp [h]
  · simp only [h, if_false, Bool.false_eq_true, consent_fold_spec]
    have hle := List.length_filter_le
      (fun m => (get_consented_users backend).contains m.author_hash) messages
    constructor
    · simp
    · simp

/-- C9: for every export, the `content_hash` recorded in the provenance
manifest equals `"sha256:"` followed by the lowercase hex SHA-256 digest of
exactly the bytes written to the JSONL file, which are the UTF-8 bytes of the
records joined by line feeds with no trailing newline. -/
theorem c9_manifest_hash_matches_file (export_id server_id : Nat) (lines : List String) :
    (export_dataset export_id server_id lines).manifest.content_hash
      = "sha256:" ++ sha256hex (export_dataset export_id server_id lines).file_bytes ∧
    (export_dataset export_id server_id lines).file_bytes
      = utf8Encode (String.intercalate "\n" lines) := by
  exact ⟨rfl, rfl⟩

/-- C3 counterexample: on a batch whose clusters are one reply-linked pair and
one temporally isolated singleton (so the clustering is forced for every
similarity matrix: the pair by `reply_to`, the separation by the 4-hour gate),
the node returns only the pair: the third message appears in no output thread,
against the claim that sub-2-message threads are collapsed into a catch-all
thread. The `skip_disentangle` part of the claim also has no code to hold of:
the node takes no such input. -/
theorem c3_counterexample_singleton_dropped :
    disentangle_node simZero [c3m1, c3m2, c3m3] = ([[c3m1, c3m2]], 0) ∧
    (disentangle_node simZero [c3m1, c3m2, c3m3]).1.all
      (fun t => !(t.contains c3m3)) = true := by
  decide

/-- Helper: membership in a stable insertion. -/
theorem mem_insertLe (le : α → α → Bool) (a x : α) (l : List α) :
    x ∈ insertLe le a l ↔ x = a ∨ x ∈ l := by
  induction l with
  | nil => simp [insertLe]
  | cons b t ih =>
    unfold insertLe
    split_ifs with h
    · simp only [List.mem_cons]
    · simp only [List.mem_cons, ih]
      tauto

/-- Helper: membership in a stable sort. -/
theorem mem_stableSort (le : α → α → Bool) (x : α) (l : List α) :
    x ∈ stableSort le l ↔ x ∈ l := by
  induction l with
  | nil => simp [stableSort]
  | cons b t ih =>
    unfold stableSort
    rw [mem_insertLe, ih]
    simp

/-- Helper: inserting into a sorted list keeps it sorted, for a transitive and
total boolean comparator. -/
theorem pairwise_insertLe (le : α → α → Bool)
    (htrans : ∀ x y z, le x y = true → le y z = true → le x z = true)
    (htotal : ∀ x y, le x y = true ∨ le y x = true)
    (a : α) (l : List α) (h : l.Pairwise (fun x y => le x y = true)) :
    (insertLe le a l).Pairwise (fun x y => le x y = true) := by
  induction l with
  | nil => simp [insertLe]
  | cons b t ih =>
    rcases List.pairwise_cons.mp h with ⟨hb, ht⟩
    unfold insertLe
    split_ifs with hab
    · refine List.pairwise_cons.mpr ⟨?_, h⟩
      intro x hx
      rcases List.mem_cons.mp hx with rfl | hxt
      · exact hab
      · exact htrans a b x hab (hb x hxt)
    · refine List.pairwise_cons.mpr ⟨?_, ih ht⟩
      intro x hx
      rcases (mem_insertLe le a x t).mp hx with rfl | hxt
      · rcases htotal b x with hbx | hxb
        · exact hbx
        · exact absurd hxb (by simpa using hab)
      · exact hb x hxt

/-- Helper: a stable sort is pairwise ordered by its comparator. -/
theorem pairwise_stableSort (le : α → α → Bool)
    (htrans : ∀ x y z, le x y = true → le y z = true → le x z = true)
    (htotal : ∀ x y, le x y = true ∨ le y x = true)
    (l : List α) :
    (stableSort le l).Pairwise (fun x y => le x y = true) := by
  induction l with
  | nil => simp [stableSort]
  | cons b t ih => exact pairwise_insertLe le htrans htotal b (stableSort le t) ih

/-- Helper: largest-first sorting of the thread list is pairwise
length-descending. -/
theorem sortedDesc_stableSort (l : List (List RawMessage)) :
    (stableSort (fun a b => decide (b.length ≤ a.length)) l).Pairwise
      (fun a b => b.length ≤ a.length) := by
  have h := pairwise_stableSort (fun (a b : List RawMessage) => decide (b.length ≤ a.length))
    (fun x y z h1 h2 => by
      simp only [decide_eq_true_eq] at h1 h2 ⊢
      omega)
    (fun x y => by
      rcases Nat.le_total y.length x.length with h | h <;> simp [h])
    l
  exact h.imp (fun hab => by simpa using hab)

/-- C3 amended: what the node actually guarantees: `current_thread_idx = 0`,
threads sorted largest first, and either every emitted thread has at least two
messages (singletons having been dropped), or no multi-message thread existed
and the output is the single catch-all thread of all clustered messages. -/
theorem c3_amended_contract (sim : Nat → Nat → ℚ) (msgs : List RawMessage) :
    (disentangle_node sim msgs).2 = 0 ∧
    (disentangle_node sim msgs).1.Pairwise (fun a b => b.length ≤ a.length) ∧
    ((∀ t ∈ (disentangle_node sim msgs).1, 2 ≤ t.length) ∨
      (disentangle_node sim msgs).1
        = [(cluster sim (msgs.map
            (fun m => { m with has_code := contentHasCode m.content }))).flatten]) := by
  refine ⟨rfl, ?_, ?_⟩
  · simp only [disentangle_node]
    exact sortedDesc_stableSort _
  · simp only [disentangle_node]
    split_ifs with h1 h2
    · left
      intro t ht
      simp [stableSort] at ht
    · right
      simp [stableSort, insertLe]
    · left
      intro t ht
      rw [mem_stableSort] at ht
      have := (List.mem_filter.mp ht).2
      simpa using this

/-- C7 counterexample: the claim says a loopback IPv4 candidate "is never
redacted and survives in the output unchanged". In `/home/127.0.0.1` the
IPv4 rule does skip `127.0.0.1`, but the home-path rule then redacts the whole
string, so the loopback address does not survive. -/
theorem c7_counterexample_loopback_swallowed_by_path :
    (anonymize "/home/127.0.0.1".toList).1 = "[PATH]".toList ∧
    pyContains (anonymize "/home/127.0.0.1".toList).1 "127.0.0.1".toList = false ∧
    (anonymize "/home/127.0.0.1".toList).2
      = [⟨"FILE_PATH", "/home/127.0.0.1".toList, "[PATH]".toList, 0, 15⟩] := by
  decide

/-- Helper: one replacement step either skips (leaving the accumulator
untouched) or records a redaction satisfying the policy guards. -/
theorem processOne_guard (pii_type : String) (repl snapshot : List Char)
    (acc : List Char × List Redaction) (m : RMatch) :
    ∀ r ∈ (processOne pii_type repl snapshot acc m).2,
      r ∈ acc.2 ∨ RedactionGuard r := by
  intro r hr
  simp only [processOne] at hr
  split_ifs at hr with h1 h2
  · exact Or.inl hr
  · exact Or.inl hr
  · rcases List.mem_append.mp hr with h | h
    · exact Or.inl h
    · right
      simp only [List.mem_singleton] at h
      subst h
      simp only [Bool.and_eq_true, decide_eq_true_eq, not_and, Bool.or_eq_true,
        not_or] at h1 h2
      refine ⟨fun hty => ?_, ?_, fun hty => ?_⟩
      · dsimp only at hty ⊢
        rw [Bool.eq_false_iff]
        simpa using h2.1 hty
      · dsimp only
        exact h2.2
      · dsimp only at hty ⊢
        have := h1 hty
        omega

/-- Helper: the per-pattern replacement fold preserves the redaction guard. -/
theorem processOne_fold_guard (pii_type : String) (repl snapshot : List Char)
    (ms : List RMatch) (acc : List Char × List Redaction)
    (hacc : ∀ r ∈ acc.2, RedactionGuard r) :
    ∀ r ∈ (ms.foldl (processOne pii_type repl snapshot) acc).2, RedactionGuard r := by
  induction ms generalizing acc with
  | nil => exact hacc
  | cons m ms ih =>
    rw [List.foldl_cons]
    apply ih
    intro r hr
    rcases processOne_guard pii_type repl snapshot acc m r hr with h | h
    · exact hacc r h
    · exact h

/-- Helper: the whole pattern fold preserves the redaction guard. -/
theorem applyPattern_fold_guard (ps : List (String × Regex × List Char))
    (acc : List Char × List Redaction) (hacc : ∀ r ∈ acc.2, RedactionGuard r) :
    ∀ r ∈ (ps.foldl applyPattern acc).2, RedactionGuard r := by
  induction ps generalizing acc with
  | nil => exact hacc
  | cons p ps ih =>
    rw [List.foldl_cons]
    apply ih
    intro r hr
    exact processOne_fold_guard p.1 p.2.2 acc.1 _ acc hacc r hr

/-- C7 amended: the IPv4 skip and the phone-length skip hold of every
*recorded redaction* — an IPv4-rule redaction is never loopback, `0.0.0.0` is
never an original of any redaction, and phone redactions keep at least 7
characters after removing spaces and hyphens — but a loopback address need not
survive in the output, since a match of another rule (home path, authenticated
URL) may contain it; the phone guard is about the source's space-hyphen
normalization. -/
theorem c7_amended_skip_guards (text : List Char) (r : Redaction)
    (h : r ∈ (anonymize text).2) :
    (r.rtype = "IPV4" → "127.".toList.isPrefixOf r.original = false) ∧
    r.original ≠ "0.0.0.0".toList ∧
    (r.rtype = "PHONE" → 7 ≤ phoneNormLen r.original) := by
  have hg : ∀ r' ∈ (anonymize text).2, RedactionGuard r' := by
    unfold anonymize
    exact applyPattern_fold_guard ANON_PATTERNS (text, []) (by simp)
  exact hg r h

/-- C7 witness: the amended theorem applied to a concrete redaction of a
public (non-loopback) IPv4 address. -/
theorem c7_amended_skip_guards_witness :
    (Redaction.rtype ⟨"IPV4", "1.2.3.4".toList, "[IP]".toList, 3, 10⟩ = "IPV4" →
      "127.".toList.isPrefixOf
        (Redaction.original ⟨"IPV4", "1.2.3.4".toList, "[IP]".toList, 3, 10⟩) = false) ∧
    Redaction.original ⟨"IPV4", "1.2.3.4".toList, "[IP]".toList, 3, 10⟩
      ≠ "0.0.0.0".toList ∧
    (Redaction.rtype ⟨"IPV4", "1.2.3.4".toList, "[IP]".toList, 3, 10⟩ = "PHONE" →
      7 ≤ phoneNormLen
        (Redaction.original ⟨"IPV4", "1.2.3.4".toList, "[IP]".toList, 3, 10⟩)) :=
  c7_amended_skip_guards "ip 1.2.3.4".toList
    ⟨"IPV4", "1.2.3.4".toList, "[IP]".toList, 3, 10⟩ (by decide)

/-- C8 counterexample: anonymization is not idempotent. In `a@b.cc12345678`
the email is not matched on the first pass (`cc` is directly followed by a
digit, so `\b` fails), the digit run is redacted as a phone number, and the
resulting `a@b.cc[PHONE]` exposes a fresh email match on the second pass. -/
theorem c8_counterexample_not_idempotent :
    (anonymize "a@b.cc12345678".toList).1 = "a@b.cc[PHONE]".toList ∧
    (anonymize (anonymize "a@b.cc12345678".toList).1).2
      = [⟨"EMAIL", "a@b.cc".toList, "[EMAIL]".toList, 0, 6⟩] ∧
    (anonymize (anonymize "a@b.cc12345678".toList).1).2 ≠ [] := by
  decide

/-- Helper: a replacement step either leaves the accumulator unchanged or
appends exactly one redaction. -/
theorem processOne_step_cases (pii_type : String) (repl snapshot : List Char)
    (acc : List Char × List Redaction) (m : RMatch) :
    processOne pii_type repl snapshot acc m = acc ∨
    ∃ red, (processOne pii_type repl snapshot acc m).2 = acc.2 ++ [red] := by
  simp only [processOne]
  split_ifs
  · exact Or.inl rfl
  · exact Or.inl rfl
  · exact Or.inr ⟨_, rfl⟩

/-- Helper: the per-pattern fold only ever appends to the redaction list. -/
theorem processOne_fold_append (pii_type : String) (repl snapshot : List Char)
    (ms : List RMatch) (acc : List Char × List Redaction) :
    ∃ d, (ms.foldl (processOne pii_type repl snapshot) acc).2 = acc.2 ++ d := by
  induction ms generalizing acc with
  | nil => exact ⟨[], by simp⟩
  | cons m ms ih =>
    rw [List.foldl_cons]
    obtain ⟨d, hd⟩ := ih (processOne pii_type repl snapshot acc m)
    rcases processOne_step_cases pii_type repl snapshot acc m with h | ⟨red, hred⟩
    · exact ⟨d, by rw [hd, h]⟩
    · exact ⟨red :: d, by rw [hd, hred, List.append_assoc, List.singleton_append]⟩

/-- Helper: if the per-pattern fold records no redaction, it changes nothing. -/
theorem processOne_fold_noadd (pii_type : String) (repl snapshot : List Char)
    (ms : List RMatch) (acc : List Char × List Redaction)
    (h : (ms.foldl (processOne pii_type repl snapshot) acc).2 = acc.2) :
    ms.foldl (processOne pii_type repl snapshot) acc = acc := by
  induction ms generalizing acc with
  | nil => rfl
  | cons m ms ih =>
    rw [List.foldl_cons] at h ⊢
    rcases processOne_step_cases pii_type repl snapshot acc m with heq | ⟨red, hred⟩
    · rw [heq] at h ⊢
      exact ih acc h
    · exfalso
      obtain ⟨d, hd⟩ := processOne_fold_append pii_type repl snapshot ms
        (processOne pii_type repl snapshot acc m)
      rw [hd, hred] at h
      have := congrArg List.length h
      simp [List.length_append] at this

/-- Helper: one pattern application only ever appends redactions. -/
theorem applyPattern_append (acc : List Char × List Redaction)
    (p : String × Regex × List Char) :
    ∃ d, (applyPattern acc p).2 = acc.2 ++ d := by
  unfold applyPattern
  exact processOne_fold_append p.1 p.2.2 acc.1 _ acc

/-- Helper: a pattern application that records no redaction changes nothing. -/
theorem applyPattern_noadd (acc : List Char × List Redaction)
    (p : String × Regex × List Char) (h : (applyPattern acc p).2 = acc.2) :
    applyPattern acc p = acc := by
  unfold applyPattern at h ⊢
  exact processOne_fold_noadd p.1 p.2.2 acc.1 _ acc h

/-- Helper: the pattern-registry fold only ever appends redactions. -/
theorem patterns_fold_append (ps : List (String × Regex × List Char))
    (acc : List Char × List Redaction) :
    ∃ d, (ps.foldl applyPattern acc).2 = acc.2 ++ d := by
  induction ps generalizing acc with
  | nil => exact ⟨[], by simp⟩
  | cons p ps ih =>
    rw [List.foldl_cons]
    obtain ⟨d, hd⟩ := ih (applyPattern acc p)
    obtain ⟨d0, hd0⟩ := applyPattern_append acc p
    exact ⟨d0 ++ d, by rw [hd, hd0, List.append_assoc]⟩

/-- Helper: a registry fold recording no redaction changes nothing. -/
theorem patterns_fold_noadd (ps : List (String × Regex × List Char))
    (acc : List Char × List Redaction)
    (h : (ps.foldl applyPattern acc).2 = acc.2) :
    ps.foldl applyPattern acc = acc := by
  induction ps generalizing acc with
  | nil => rfl
  | cons p ps ih =>
    rw [List.foldl_cons] at h ⊢
    obtain ⟨d0, hd0⟩ := applyPattern_append acc p
    obtain ⟨d, hd⟩ := patterns_fold_append ps (applyPattern acc p)
    have hlen := congrArg List.length h
    rw [hd, hd0] at hlen
    simp [List.length_append] at hlen
    have hd0nil : d0 = [] := by
      cases d0 with
      | nil => rfl
      | cons x xs => simp at hlen
    have heq : applyPattern acc p = acc :=
      applyPattern_noadd acc p (by rw [hd0, hd0nil, List.append_nil])
    rw [heq] at h ⊢
    exact ih acc h

/-- C8 amended: idempotence fails in general (see the counterexample), but
the redaction-free case is a fixed point: when the first pass records no
redaction it returns the text unchanged, and a second pass then also records
nothing. -/
theorem c8_amended_fixpoint (text : List Char) (h : (anonymize text).2 = []) :
    (anonymize text).1 = text ∧ (anonymize (anonymize text).1).2 = [] := by
  have hfix : anonymize text = (text, []) := by
    unfold anonymize at h ⊢
    exact patterns_fold_noadd ANON_PATTERNS (text, []) (by simpa using h)
  refine ⟨by rw [hfix], ?_⟩
  rw [hfix]
  exact h

/-- C8 witness: the fixed-point theorem applied to a redaction-free input. -/
theorem c8_amended_fixpoint_witness :
    (anonymize "hello".toList).1 = "hello".toList ∧
    (anonymize (anonymize "hello".toList).1).2 = [] :=
  c8_amended_fixpoint "hello".toList (by decide)

end Neuroweave
